import Mathlib

/-!
Verification of the pagination-window planner of `SupportTable.jsx`
(`Restaurant-Dashboard` repository).

The planner is the `pageNumbers` memo (SupportTable.jsx lines 99-146): given
the current page and the total page count it builds the ordered row of
pagination controls, mixing numbered page buttons with ellipsis gap markers,
and finally removes duplicates with `[...new Set(pages)]`.  The source fixes
the constants `ITEMS_PER_PAGE = 10` and `PAGE_RANGE = 2`; the embedding keeps
them as definitions and generalises `pageNumbers` over the range so that the
universally quantified properties can be stated.

The JS array `pages` is built by a sequence of conditional `push` calls; the
embedding names the intermediate value after each push site
(`pagesAfterAnchor`, `pagesAfterLeftGap`, `pagesAfterWindow`,
`pagesAfterRightGap`, `sparsePages`), each citing the source lines it
translates.
-/

namespace RestaurantDashboard

/-- A token in the pagination control row: either a numbered page button or a
non-interactive ellipsis marker.  The source stores these in one JS array as
numbers and the three-dot string literal. -/
inductive PageToken where
  | Page : Nat → PageToken
  | Ellipsis : PageToken
  deriving DecidableEq

open PageToken

/-- `const totalPages = Math.ceil(allTickets.length / ITEMS_PER_PAGE);`
(SupportTable.jsx line 43), with the item count and page size as parameters.
For `pageSize ≥ 1` this is exactly the ceiling of the rational division. -/
def totalPagesOf (totalItems pageSize : Nat) : Nat :=
  (totalItems + pageSize - 1) / pageSize

/-- `maxPageButtons` (SupportTable.jsx line 101), with `PAGE_RANGE`
generalised: `(PAGE_RANGE * 2) + 1`. -/
def maxPageButtons (pageRange : Nat) : Nat :=
  pageRange * 2 + 1

/-- `leftBound` (SupportTable.jsx line 108): `Math.max(1, currentPage - PAGE_RANGE)`.
With truncated `Nat` subtraction the value agrees with the JS expression: a
negative JS difference and a truncated-to-zero difference are both clamped to 1. -/
def leftBound (currentPage pageRange : Nat) : Nat :=
  max 1 (currentPage - pageRange)

/-- `rightBound` (SupportTable.jsx line 109): `Math.min(totalPages, currentPage + PAGE_RANGE)`. -/
def rightBound (currentPage totalPages pageRange : Nat) : Nat :=
  min totalPages (currentPage + pageRange)

/-- One iteration of the window loop body (SupportTable.jsx lines 123-131):
`if (i !== 1 || pages.includes(1)) { if (i === totalPages && pages.includes(totalPages)) {} else { pages.push(i) } }`. -/
def windowStep (totalPages : Nat) (pages : List PageToken) (i : Nat) : List PageToken :=
  if i ≠ 1 ∨ Page 1 ∈ pages then
    if i = totalPages ∧ Page totalPages ∈ pages then pages
    else pages ++ [Page i]
  else pages

/-- The array after the leading-anchor push site (SupportTable.jsx lines
111-114): `if (currentPage > PAGE_RANGE + 1 && totalPages > maxPageButtons + 2) pages.push(1)`,
starting from the empty array of line 100. -/
def pagesAfterAnchor (currentPage totalPages pageRange : Nat) : List PageToken :=
  if currentPage > pageRange + 1 ∧ totalPages > maxPageButtons pageRange + 2 then [Page 1]
  else []

/-- The array after the left-ellipsis push site (SupportTable.jsx lines
117-120): `if (leftBound > 2) pages.push('...')`. -/
def pagesAfterLeftGap (currentPage totalPages pageRange : Nat) : List PageToken :=
  if leftBound currentPage pageRange > 2 then
    pagesAfterAnchor currentPage totalPages pageRange ++ [Ellipsis]
  else pagesAfterAnchor currentPage totalPages pageRange

/-- The array after the window loop (SupportTable.jsx lines 122-131):
`for (let i = leftBound; i <= rightBound; i++) { ... }`, folding `windowStep`
over `leftBound, leftBound+1, …, rightBound`. -/
def pagesAfterWindow (currentPage totalPages pageRange : Nat) : List PageToken :=
  (List.range' (leftBound currentPage pageRange)
      (rightBound currentPage totalPages pageRange + 1 - leftBound currentPage pageRange)).foldl
    (windowStep totalPages) (pagesAfterLeftGap currentPage totalPages pageRange)

/-- The array after the right-ellipsis push site (SupportTable.jsx lines
134-137): `if (rightBound < totalPages - 1) pages.push('...')`. -/
def pagesAfterRightGap (currentPage totalPages pageRange : Nat) : List PageToken :=
  if rightBound currentPage totalPages pageRange < totalPages - 1 then
    pagesAfterWindow currentPage totalPages pageRange ++ [Ellipsis]
  else pagesAfterWindow currentPage totalPages pageRange

/-- The array at the end of the sparse (`else`) branch (SupportTable.jsx lines
139-142): `if (totalPages !== 1 && !pages.includes(totalPages)) pages.push(totalPages)`. -/
def sparsePages (currentPage totalPages pageRange : Nat) : List PageToken :=
  if totalPages ≠ 1 ∧ Page totalPages ∉ pagesAfterRightGap currentPage totalPages pageRange then
    pagesAfterRightGap currentPage totalPages pageRange ++ [Page totalPages]
  else pagesAfterRightGap currentPage totalPages pageRange

/-- The array at the end of the dense (`then`) branch (SupportTable.jsx lines
103-106): `for (let i = 1; i <= totalPages; i++) pages.push(i)`. -/
def densePages (totalPages : Nat) : List PageToken :=
  (List.range' 1 totalPages).map Page

/-- First-occurrence deduplication by value over an accumulator of already-seen
tokens: the semantics of the JS `new Set` iteration, which keeps the first
occurrence of every value (page numbers and the ellipsis string alike). -/
def setDedupAux (seen : List PageToken) : List PageToken → List PageToken
  | [] => []
  | t :: rest =>
      if t ∈ seen then setDedupAux seen rest
      else t :: setDedupAux (t :: seen) rest

/-- `[...new Set(pages)]` (SupportTable.jsx line 145). -/
def setDedup (l : List PageToken) : List PageToken := setDedupAux [] l

/-- The `pageNumbers` memo (SupportTable.jsx lines 99-146), with the constant
`PAGE_RANGE` generalised to the parameter `pageRange`: the dense branch when
`totalPages <= maxPageButtons + 2` (line 103), the sparse branch otherwise,
and `[...new Set(pages)]` (line 145) applied to the result of either branch. -/
def pageNumbers (currentPage totalPages pageRange : Nat) : List PageToken :=
  setDedup
    (if totalPages ≤ maxPageButtons pageRange + 2 then densePages totalPages
     else sparsePages currentPage totalPages pageRange)

/-- `const ITEMS_PER_PAGE = 10;` (SupportTable.jsx line 11). -/
def ITEMS_PER_PAGE : Nat := 10

/-- `const PAGE_RANGE = 2;` (SupportTable.jsx line 12). -/
def PAGE_RANGE : Nat := 2

/-- The planner over the raw inputs, as the spec's `plan`: compute
`totalPages` from the item count and page size (line 43), then run
`pageNumbers`. -/
def plan (currentPage totalItems pageSize pageRange : Nat) : List PageToken :=
  pageNumbers currentPage (totalPagesOf totalItems pageSize) pageRange

/-- `handlePageChange` (SupportTable.jsx lines 45-49): the value of
`currentPage` after requesting navigation to `page`; the update happens only
when `page >= 1 && page <= totalPages`.  The requested page is an integer,
since the previous-page arrow can request `currentPage - 1`. -/
def handlePageChange (totalPages : Nat) (currentPage page : Int) : Int :=
  if 1 ≤ page ∧ page ≤ (totalPages : Int) then page else currentPage

/-! ### Sanity checks against the spec's concrete scenarios -/

example : pageNumbers 1 10 2 = [Page 2, Page 3, Ellipsis, Page 10] := by decide

example : pageNumbers 5 10 2 =
    [Page 1, Ellipsis, Page 3, Page 4, Page 5, Page 6, Page 7, Page 10] := by decide

example : pageNumbers 10 10 2 = [Page 1, Ellipsis, Page 8, Page 9, Page 10] := by decide

example : pageNumbers 3 5 2 = [Page 1, Page 2, Page 3, Page 4, Page 5] := by decide

/-! ### Properties of the `new Set` deduplication -/

/-- Every token produced by `setDedupAux` avoids the `seen` accumulator. -/
theorem setDedupAux_not_mem_seen (l : List PageToken) :
    ∀ seen t, t ∈ setDedupAux seen l → t ∉ seen := by
  induction l with
  | nil => intro seen t h; simp [setDedupAux] at h
  | cons a rest ih =>
      intro seen t h
      by_cases ha : a ∈ seen
      · rw [setDedupAux, if_pos ha] at h
        exact ih seen t h
      · rw [setDedupAux, if_neg ha] at h
        rcases List.mem_cons.mp h with h | h
        · subst h; exact ha
        · intro hseen
          exact ih (a :: seen) t h (List.mem_cons_of_mem a hseen)

/-- The `new Set` spread produces a duplicate-free list. -/
theorem setDedupAux_nodup (l : List PageToken) : ∀ seen, (setDedupAux seen l).Nodup := by
  induction l with
  | nil => intro seen; simp [setDedupAux]
  | cons a rest ih =>
      intro seen
      by_cases ha : a ∈ seen
      · rw [setDedupAux, if_pos ha]; exact ih seen
      · rw [setDedupAux, if_neg ha]
        refine List.nodup_cons.mpr ⟨?_, ih (a :: seen)⟩
        intro hmem
        exact setDedupAux_not_mem_seen rest (a :: seen) a hmem (List.mem_cons_self a seen)

theorem setDedup_nodup (l : List PageToken) : (setDedup l).Nodup :=
  setDedupAux_nodup l []

/-- Deduplication never invents tokens. -/
theorem mem_of_mem_setDedupAux (l : List PageToken) :
    ∀ seen t, t ∈ setDedupAux seen l → t ∈ l := by
  induction l with
  | nil => intro _ _ h; simp [setDedupAux] at h
  | cons a rest ih =>
      intro seen t h
      by_cases ha : a ∈ seen
      · rw [setDedupAux, if_pos ha] at h
        exact List.mem_cons_of_mem a (ih seen t h)
      · rw [setDedupAux, if_neg ha] at h
        rcases List.mem_cons.mp h with h | h
        · exact h ▸ List.mem_cons_self a rest
        · exact List.mem_cons_of_mem a (ih (a :: seen) t h)

theorem mem_of_mem_setDedup (l : List PageToken) (t : PageToken)
    (h : t ∈ setDedup l) : t ∈ l :=
  mem_of_mem_setDedupAux l [] t h

/-- On a duplicate-free list disjoint from the accumulator, `setDedupAux` is
the identity. -/
theorem setDedupAux_eq_self (l : List PageToken) :
    ∀ seen, l.Nodup → (∀ t ∈ l, t ∉ seen) → setDedupAux seen l = l := by
  induction l with
  | nil => intro seen _ _; rfl
  | cons a rest ih =>
      intro seen hnd hdisj
      have ha : a ∉ seen := hdisj a (List.mem_cons_self a rest)
      rw [setDedupAux, if_neg ha]
      congr 1
      refine ih (a :: seen) (List.nodup_cons.mp hnd).2 ?_
      intro t ht hmem
      rcases List.mem_cons.mp hmem with h | h
      · exact (List.nodup_cons.mp hnd).1 (h ▸ ht)
      · exact hdisj t (List.mem_cons_of_mem a ht) h

/-- On a duplicate-free list the `new Set` spread is the identity. -/
theorem setDedup_eq_self (l : List PageToken) (h : l.Nodup) : setDedup l = l :=
  setDedupAux_eq_self l [] h (by intro t _ hmem; simp at hmem)

/-! ### Shape of the sparse-branch array -/

/-- Every token the window loop adds on top of the initial array is a page
number drawn from the iterated list. -/
theorem mem_foldl_windowStep (totalPages : Nat) (l : List Nat) :
    ∀ (pages : List PageToken) (t : PageToken),
      t ∈ l.foldl (windowStep totalPages) pages → t ∈ pages ∨ ∃ i ∈ l, t = Page i := by
  induction l with
  | nil => intro pages t h; exact Or.inl h
  | cons a rest ih =>
      intro pages t h
      rcases ih (windowStep totalPages pages a) t h with h' | ⟨i, hi, rfl⟩
      · unfold windowStep at h'
        split_ifs at h' with h1 h2
        · exact Or.inl h'
        · rcases List.mem_append.mp h' with h'' | h''
          · exact Or.inl h''
          · exact Or.inr ⟨a, List.mem_cons_self a rest, List.mem_singleton.mp h''⟩
        · exact Or.inl h'
      · exact Or.inr ⟨i, List.mem_cons_of_mem a hi, rfl⟩

/-- Every page number in the sparse-branch array is between 1 and
`totalPages`, provided `totalPages ≥ 1`. -/
theorem sparsePages_page_bounds (currentPage totalPages pageRange n : Nat)
    (htp : 1 ≤ totalPages)
    (h : Page n ∈ sparsePages currentPage totalPages pageRange) :
    1 ≤ n ∧ n ≤ totalPages := by
  have hanchor : ∀ m, Page m ∈ pagesAfterAnchor currentPage totalPages pageRange →
      1 ≤ m ∧ m ≤ totalPages := by
    intro m hm
    unfold pagesAfterAnchor at hm
    split_ifs at hm with hc
    · rcases List.mem_singleton.mp hm with hm'
      cases hm'
      exact ⟨le_rfl, htp⟩
    · simp at hm
  have hleft : ∀ m, Page m ∈ pagesAfterLeftGap currentPage totalPages pageRange →
      1 ≤ m ∧ m ≤ totalPages := by
    intro m hm
    unfold pagesAfterLeftGap at hm
    split_ifs at hm with hc
    · rcases List.mem_append.mp hm with hm' | hm'
      · exact hanchor m hm'
      · simp at hm'
    · exact hanchor m hm
  have hwindow : ∀ m, Page m ∈ pagesAfterWindow currentPage totalPages pageRange →
      1 ≤ m ∧ m ≤ totalPages := by
    intro m hm
    unfold pagesAfterWindow at hm
    rcases mem_foldl_windowStep totalPages _ _ _ hm with hm' | ⟨i, hi, he⟩
    · exact hleft m hm'
    · have hi' := List.mem_range'_1.mp hi
      have him : m = i := by cases he; rfl
      have hlb : 1 ≤ leftBound currentPage pageRange := le_max_left 1 _
      have hrb : rightBound currentPage totalPages pageRange ≤ totalPages :=
        min_le_left _ _
      omega
  have hright : ∀ m, Page m ∈ pagesAfterRightGap currentPage totalPages pageRange →
      1 ≤ m ∧ m ≤ totalPages := by
    intro m hm
    unfold pagesAfterRightGap at hm
    split_ifs at hm with hc
    · rcases List.mem_append.mp hm with hm' | hm'
      · exact hwindow m hm'
      · simp at hm'
    · exact hwindow m hm
  unfold sparsePages at h
  split_ifs at h with hc
  · rcases List.mem_append.mp h with h' | h'
    · exact hright n h'
    · rcases List.mem_singleton.mp h' with h''
      cases h''
      exact ⟨htp, le_rfl⟩
  · exact hright n h

/-! ### The dense branch -/

theorem page_injective : Function.Injective Page := by
  intro a b h
  cases h
  rfl

/-- When `totalPages ≤ 2*pageRange + 3` the dense branch runs and the final
deduplication is the identity on it: the output is `Page 1 .. Page totalPages`. -/
theorem pageNumbers_dense (currentPage totalPages pageRange : Nat)
    (h : totalPages ≤ 2 * pageRange + 3) :
    pageNumbers currentPage totalPages pageRange = (List.range' 1 totalPages).map Page := by
  have h' : totalPages ≤ maxPageButtons pageRange + 2 := by
    unfold maxPageButtons; omega
  unfold pageNumbers
  rw [if_pos h']
  unfold densePages
  exact setDedup_eq_self _ ((List.nodup_range' 1 totalPages).map page_injective)

/-! ### The claims -/

/-- C1 (refuted on the code): at `totalPages = 10`, `pageRange = 2`,
`currentPage = 1` — a sparse case with window `[leftBound, rightBound] = [1, 3]`
— the output omits `Page 1`: the window loop's guard
`i !== 1 || pages.includes(1)` skips `i = 1` whenever page 1 has not already
been pushed, contrary to the adjacent source comment and to the claim that
every window value is emitted. -/
theorem c1_window_value_dropped :
    10 > 2 * 2 + 3 ∧ leftBound 1 2 = 1 ∧ rightBound 1 10 2 = 3 ∧
      Page 1 ∉ pageNumbers 1 10 2 ∧
      pageNumbers 1 10 2 = [Page 2, Page 3, Ellipsis, Page 10] := by decide

/-- C2 (refuted on the code): for `totalItems = 100`, `pageSize = 10`,
`pageRange = 2`, `currentPage = 1` the planner returns
`[Page 2, Page 3, Ellipsis, Page 10]`, not the expected
`[Page 1, Page 2, Page 3, Ellipsis, Page 10]`: the leading `Page 1` is
dropped by the window loop's guard. -/
theorem c2_scenario_a_actual :
    plan 1 100 10 2 = [Page 2, Page 3, Ellipsis, Page 10] ∧
      plan 1 100 10 2 ≠ [Page 1, Page 2, Page 3, Ellipsis, Page 10] := by decide

/-- C3 (refuted on the code): at `totalPages = 10`, `pageRange = 2`,
`currentPage = 5` the sparse construction does push two `Ellipsis` tokens,
but the final `[...new Set(pages)]` keeps only the first occurrence of every
value — the ellipsis string included — so exactly one `Ellipsis` survives in
the output. -/
theorem c3_ellipsis_deduplicated :
    (sparsePages 5 10 2).count Ellipsis = 2 ∧
      (pageNumbers 5 10 2).count Ellipsis = 1 := by decide

/-- C4 (refuted on the code): for `totalItems = 100`, `pageSize = 10`,
`pageRange = 2`, `currentPage = 5` the planner returns
`[Page 1, Ellipsis, Page 3, Page 4, Page 5, Page 6, Page 7, Page 10]` — the
right-gap `Ellipsis` is removed by the `new Set` deduplication, so the output
differs from the claimed two-ellipsis sequence. -/
theorem c4_scenario_b_actual :
    plan 5 100 10 2 = [Page 1, Ellipsis, Page 3, Page 4, Page 5, Page 6, Page 7, Page 10] ∧
      plan 5 100 10 2 ≠
        [Page 1, Ellipsis, Page 3, Page 4, Page 5, Page 6, Page 7, Ellipsis, Page 10] := by
  decide

/-- C5: in the dense case (`totalPages ≤ 2*pageRange + 3`, `totalPages ≥ 1`)
the planner's output is exactly `Page 1, Page 2, …, Page totalPages` with no
`Ellipsis` token, for any valid `currentPage` in `[1, totalPages]`. -/
theorem dense_case_all_pages (currentPage totalPages pageRange : Nat)
    (htp : 1 ≤ totalPages) (hle : totalPages ≤ 2 * pageRange + 3)
    (hcp1 : 1 ≤ currentPage) (hcp2 : currentPage ≤ totalPages) :
    pageNumbers currentPage totalPages pageRange = (List.range' 1 totalPages).map Page ∧
      Ellipsis ∉ pageNumbers currentPage totalPages pageRange := by
  have he := pageNumbers_dense currentPage totalPages pageRange hle
  refine ⟨he, ?_⟩
  rw [he]
  intro hmem
  rcases List.mem_map.mp hmem with ⟨m, _, hcontra⟩
  exact PageToken.noConfusion hcontra

/-- Witness for C5 at `currentPage = 3`, `totalPages = 5`, `pageRange = 2`. -/
theorem dense_case_all_pages_witness :
    pageNumbers 3 5 2 = (List.range' 1 5).map Page ∧
      Ellipsis ∉ pageNumbers 3 5 2 :=
  dense_case_all_pages 3 5 2 (by decide) (by decide) (by decide) (by decide)

/-- C6: with `totalItems = 0` the planner returns the empty sequence for
every `currentPage`, `pageSize ≥ 1` and `pageRange`. -/
theorem plan_empty_of_no_items (currentPage pageSize pageRange : Nat)
    (hps : 1 ≤ pageSize) :
    plan currentPage 0 pageSize pageRange = [] := by
  have htp : totalPagesOf 0 pageSize = 0 := by
    unfold totalPagesOf
    exact Nat.div_eq_of_lt (by omega)
  unfold plan
  rw [htp, pageNumbers_dense currentPage 0 pageRange (by omega)]
  rfl

/-- Witness for C6 at `currentPage = 1`, `pageSize = 10`, `pageRange = 2`. -/
theorem plan_empty_of_no_items_witness : plan 1 0 10 2 = [] :=
  plan_empty_of_no_items 1 10 2 (by decide)

/-- C7: for every input satisfying the precondition, no page value occurs
twice among the output's `Page` tokens — every `Page n` appears at most
once, thanks to the final `new Set` deduplication. -/
theorem plan_no_duplicate_page (currentPage totalItems pageSize pageRange n : Nat)
    (hps : 1 ≤ pageSize) (hcp1 : 1 ≤ currentPage)
    (hcp2 : currentPage ≤ max (totalPagesOf totalItems pageSize) 1) :
    (plan currentPage totalItems pageSize pageRange).count (Page n) ≤ 1 := by
  have hnd : (plan currentPage totalItems pageSize pageRange).Nodup := by
    unfold plan pageNumbers
    exact setDedup_nodup _
  exact List.nodup_iff_count_le_one.mp hnd (Page n)

/-- Witness for C7 at `currentPage = 5`, `totalItems = 100`, `pageSize = 10`,
`pageRange = 2`, page value 10. -/
theorem plan_no_duplicate_page_witness :
    (plan 5 100 10 2).count (Page 10) ≤ 1 :=
  plan_no_duplicate_page 5 100 10 2 10 (by decide) (by decide) (by decide)

/-- C8: the planner is deterministic — structurally equal input tuples give
structurally equal outputs (the planner is a pure function of its input). -/
theorem plan_deterministic (cp₁ ti₁ ps₁ pr₁ cp₂ ti₂ ps₂ pr₂ : Nat)
    (h : (cp₁, ti₁, ps₁, pr₁) = (cp₂, ti₂, ps₂, pr₂)) :
    plan cp₁ ti₁ ps₁ pr₁ = plan cp₂ ti₂ ps₂ pr₂ := by
  simp only [Prod.mk.injEq] at h
  obtain ⟨rfl, rfl, rfl, rfl⟩ := h
  rfl

/-- Witness for C8 at the scenario-B input. -/
theorem plan_deterministic_witness : plan 5 100 10 2 = plan 5 100 10 2 :=
  plan_deterministic 5 100 10 2 5 100 10 2 rfl

/-- C9: `handlePageChange` leaves `currentPage` unchanged when the requested
page is below 1, above `totalPages`, or equal to the current page. -/
theorem handlePageChange_noop (totalPages : Nat) (currentPage page : Int)
    (h : page < 1 ∨ (totalPages : Int) < page ∨ page = currentPage) :
    handlePageChange totalPages currentPage page = currentPage := by
  unfold handlePageChange
  split_ifs with hc
  · rcases h with h | h | h
    · omega
    · omega
    · exact h
  · rfl

/-- Witness for C9: requesting page 0 with `totalPages = 10` keeps
`currentPage = 3`. -/
theorem handlePageChange_noop_witness : handlePageChange 10 3 0 = 3 :=
  handlePageChange_noop 10 3 0 (Or.inl (by decide))

/-- C10: under the precondition (`totalPages ≥ 1`,
`1 ≤ currentPage ≤ totalPages`) every `Page n` token the planner emits
satisfies `1 ≤ n ≤ totalPages`. -/
theorem pageNumbers_page_in_range (currentPage totalPages pageRange n : Nat)
    (htp : 1 ≤ totalPages) (hcp1 : 1 ≤ currentPage) (hcp2 : currentPage ≤ totalPages)
    (hmem : Page n ∈ pageNumbers currentPage totalPages pageRange) :
    1 ≤ n ∧ n ≤ totalPages := by
  unfold pageNumbers at hmem
  have hmem' := mem_of_mem_setDedup _ _ hmem
  split_ifs at hmem' with hdense
  · unfold densePages at hmem'
    rcases List.mem_map.mp hmem' with ⟨m, hm, he⟩
    have hmn : m = n := page_injective he
    subst hmn
    have := List.mem_range'_1.mp hm
    omega
  · exact sparsePages_page_bounds currentPage totalPages pageRange n htp hmem'

/-- Witness for C10: `Page 10` in the scenario-B output is within
`[1, 10]`. -/
theorem pageNumbers_page_in_range_witness : 1 ≤ 10 ∧ 10 ≤ 10 :=
  pageNumbers_page_in_range 5 10 2 10 (by decide) (by decide) (by decide) (by decide)

end RestaurantDashboard
